import Mathlib

/-!
Verification of docs/precision_analysis/precision_loss_analysis.py.

The script performs all arithmetic with the Python decimal module after
setting getcontext().prec = 50 (rounding mode ROUND_HALF_EVEN, the
default).  Following the General Decimal Arithmetic Specification, every
arithmetic operation (+, -, *, /) computes the exact rational result and
rounds it to 50 significant digits, ties to even.  We model a Decimal by
its exact rational value, and each operation by the exact operation on
rationals followed by rounding to 50 significant digits, ties to even.
This is value-faithful: two Decimals compare equal exactly when their
rational values are equal, and the script only ever observes values
(comparisons, abs, further arithmetic, printing).
-/

namespace GhoPrecision

/-- Working precision of the script: decimal.getcontext().prec = 50. -/
def PREC : ℕ := 50

/-- Fuel-driven count of base-10 digits (structural recursion, so the
kernel can evaluate it). -/
def digitsFuel : ℕ → ℕ → ℕ
  | 0, _ => 1
  | f + 1, n => if n < 10 then 1 else digitsFuel f (n / 10) + 1

/-- Number of base-10 digits of a natural number (1 for 0). -/
def numDigits (n : ℕ) : ℕ := digitsFuel n n

/-- Decimal adjusted exponent of a nonzero rational: the unique e with
10 ^ e ≤ |q| < 10 ^ (e + 1). -/
def decExp (q : ℚ) : ℤ :=
  let a := q.num.natAbs
  let b := q.den
  let D := numDigits b
  (numDigits (a * 10 ^ D / b) : ℤ) - 1 - (D : ℤ)

/-- Round a rational to the nearest integer, ties to even
(ROUND_HALF_EVEN applied to the mantissa). -/
def rndHalfEvenInt (m : ℚ) : ℤ :=
  let n := ⌊m⌋
  let f := m - (n : ℚ)
  if f < 1 / 2 then n
  else if 1 / 2 < f then n + 1
  else if n % 2 = 0 then n else n + 1

/-- Round a rational to PREC = 50 significant decimal digits, ties to
even: the rounding every Python Decimal operation of the script applies
to its exact result. -/
def drnd (q : ℚ) : ℚ :=
  if q = 0 then 0
  else
    let e : ℤ := decExp |q|
    let s : ℤ := e - (PREC : ℤ) + 1
    let n : ℤ := rndHalfEvenInt (|q| * (10 : ℚ) ^ (-s))
    (if q < 0 then (-1 : ℚ) else 1) * (n : ℚ) * (10 : ℚ) ^ s

/-- Decimal addition at context precision 50. -/
def dadd (a b : ℚ) : ℚ := drnd (a + b)

/-- Decimal subtraction at context precision 50. -/
def dsub (a b : ℚ) : ℚ := drnd (a - b)

/-- Decimal multiplication at context precision 50. -/
def dmul (a b : ℚ) : ℚ := drnd (a * b)

/-- Decimal division at context precision 50. -/
def ddiv (a b : ℚ) : ℚ := drnd (a / b)

/-- Decimal absolute value (unary plus/minus apply context rounding). -/
def dabs (a : ℚ) : ℚ := drnd |a|

/-- RAY = Decimal(1e27): one fixed-point unit. -/
def RAY : ℚ := 10 ^ 27

/-- SECONDS_IN_YEAR = Decimal(31536000) = 365 * 24 * 3600. -/
def SECONDS_IN_YEAR : ℚ := 31536000

/-- calculate_linear_growth_factor (source lines 22-42):
rate_decimal = Decimal(rate_bps) / Decimal(10000);
rate_per_second = rate_decimal / SECONDS_IN_YEAR;
growth_factor = Decimal(1) + rate_per_second * Decimal(str(time_seconds)). -/
def calculate_linear_growth_factor (rate_bps time_seconds : ℤ) : ℚ :=
  let rate_decimal := ddiv (rate_bps : ℚ) 10000
  let rate_per_second := ddiv rate_decimal SECONDS_IN_YEAR
  dadd 1 (dmul rate_per_second (time_seconds : ℚ))

/-- calculate_continuous_compounding_factor (source lines 44-65).  The
exponent is computed in Decimal exactly as in the source; the final call
Decimal(str(math.exp(float(exponent)))) goes through platform
double-precision floating point, which we abstract as a parameter fexp
so that properties can only be derived from explicitly stated facts
about that bridge. -/
def calculate_continuous_compounding_factor (fexp : ℚ → ℚ)
    (rate_bps time_seconds : ℤ) : ℚ :=
  let rate_decimal := ddiv (rate_bps : ℚ) 10000
  let rate_per_second := ddiv rate_decimal SECONDS_IN_YEAR
  let exponent := dmul rate_per_second (time_seconds : ℚ)
  fexp exponent

/-- calculate_precision_loss (source lines 67-84):
returns 0 when continuous_factor <= linear_factor, otherwise
(continuous_factor - linear_factor) / Decimal(1) * Decimal(10000). -/
def calculate_precision_loss (linear_factor continuous_factor : ℚ) : ℚ :=
  if continuous_factor ≤ linear_factor then 0
  else dmul (ddiv (dsub continuous_factor linear_factor) 1) 10000

/-- contract_annual_rate_ray (source line 105/149/197/237):
Decimal(rate_bps) * RAY / Decimal(10000). -/
def contract_annual_rate_ray (rate_bps : ℤ) : ℚ :=
  ddiv (dmul (rate_bps : ℚ) RAY) 10000

/-- contract_rate_per_second (source line 106/150/198/238):
contract_annual_rate_ray / SECONDS_IN_YEAR. -/
def contract_rate_per_second (rate_bps : ℤ) : ℚ :=
  ddiv (contract_annual_rate_ray rate_bps) SECONDS_IN_YEAR

/-- exact_rate_per_second (source line 109/155/204/244):
(Decimal(rate_bps) / Decimal(10000)) / SECONDS_IN_YEAR * RAY. -/
def exact_rate_per_second (rate_bps : ℤ) : ℚ :=
  dmul (ddiv (ddiv (rate_bps : ℚ) 10000) SECONDS_IN_YEAR) RAY

/-- Precision loss of the rate-per-second derivation (source line 112):
abs(exact - contract) / RAY * Decimal(10000). -/
def rate_per_second_loss (rate_bps : ℤ) : ℚ :=
  dmul (ddiv (dabs (dsub (exact_rate_per_second rate_bps)
    (contract_rate_per_second rate_bps))) RAY) 10000

/-- contract_growth_factor (source lines 149-152/197-200/237-240):
RAY + contract_rate_per_second * time. -/
def contract_growth_factor (rate_bps time_seconds : ℤ) : ℚ :=
  dadd RAY (dmul (contract_rate_per_second rate_bps) (time_seconds : ℚ))

/-- exact_growth_factor (source lines 155-157/204-206/244-246):
RAY + exact_rate_per_second * time. -/
def exact_growth_factor (rate_bps time_seconds : ℤ) : ℚ :=
  dadd RAY (dmul (exact_rate_per_second rate_bps) (time_seconds : ℤ))

/-- Growth-factor precision loss (source line 160/250):
abs(exact - contract) / RAY * Decimal(10000). -/
def growth_factor_loss (rate_bps time_seconds : ℤ) : ℚ :=
  dmul (ddiv (dabs (dsub (exact_growth_factor rate_bps time_seconds)
    (contract_growth_factor rate_bps time_seconds))) RAY) 10000

/-- One yield-index update (source line 201/207/241/247):
index * growth_factor / RAY. -/
def apply_growth (idx growth : ℚ) : ℚ := ddiv (dmul idx growth) RAY

/-- The contract-path running yield index of
analyze_cumulative_yield_index_precision (source lines 192-201):
starts at RAY and applies the (per-iteration recomputed, hence constant)
contract growth factor n times. -/
def contract_yield_index (rate_bps update_interval : ℤ) : ℕ → ℚ
  | 0 => RAY
  | n + 1 => apply_growth (contract_yield_index rate_bps update_interval n)
      (contract_growth_factor rate_bps update_interval)

/-- The exact-path running yield index of
analyze_cumulative_yield_index_precision (source lines 193-207). -/
def exact_yield_index (rate_bps update_interval : ℤ) : ℕ → ℚ
  | 0 => RAY
  | n + 1 => apply_growth (exact_yield_index rate_bps update_interval n)
      (exact_growth_factor rate_bps update_interval)

/-- Cumulative precision loss after n updates (source line 210):
abs(exact_yield_index - contract_yield_index) / RAY * Decimal(10000). -/
def cumulative_index_loss (rate_bps update_interval : ℤ) (n : ℕ) : ℚ :=
  dmul (ddiv (dabs (dsub (exact_yield_index rate_bps update_interval n)
    (contract_yield_index rate_bps update_interval n))) RAY) 10000

/-- contract_final_index of analyze_extreme_yield_index_scenarios
(source lines 237-241): RAY * contract_growth_factor / RAY. -/
def contract_final_index (rate_bps time_seconds : ℤ) : ℚ :=
  apply_growth RAY (contract_growth_factor rate_bps time_seconds)

/-- Step count of analyze_cumulative_yield_index_precision (source line
189): total_time // update_interval, which raises ZeroDivisionError for
a zero interval. -/
def cumulative_step_count (total_time update_interval : ℕ) : Except String ℕ :=
  if update_interval = 0 then .error "ZeroDivisionError"
  else .ok (total_time / update_interval)

/-- The cumulative contract run of
analyze_cumulative_yield_index_precision (source lines 188-201) as a
whole: step count, then the contract index after that many updates. -/
def run_cumulative_contract (rate_bps : ℤ) (total_time update_interval : ℕ) :
    Except String ℚ :=
  if update_interval = 0 then .error "ZeroDivisionError"
  else .ok (contract_yield_index rate_bps (update_interval : ℤ)
    (total_time / update_interval))

/-- Step count of analyze_update_frequency_impact (source line 396):
total_time // interval if interval > 0 else 1. -/
def update_frequency_step_count (total_time interval : ℕ) : ℕ :=
  if 0 < interval then total_time / interval else 1

/-- The cumulative linear factor of analyze_update_frequency_impact
(source lines 400-404): product of update_frequency_step_count copies of
calculate_linear_growth_factor, Decimal multiplication, starting at 1. -/
def update_frequency_cumulative_factor (rate_bps : ℤ) (total_time interval : ℕ) : ℚ :=
  Nat.rec (motive := fun _ => ℚ) 1
    (fun _ acc => dmul acc (calculate_linear_growth_factor rate_bps (interval : ℤ)))
    (update_frequency_step_count total_time interval)

/-! ### Properties of the digit counter and the adjusted exponent -/

theorem digitsFuel_pos (f n : ℕ) : 1 ≤ digitsFuel f n := by
  induction f generalizing n with
  | zero => simp [digitsFuel]
  | succ f ih =>
    by_cases h : n < 10
    · simp [digitsFuel, h]
    · simp only [digitsFuel, if_neg h]
      omega

theorem digitsFuel_spec (f n : ℕ) (hf : n ≤ f) (hn : 1 ≤ n) :
    10 ^ (digitsFuel f n - 1) ≤ n ∧ n < 10 ^ digitsFuel f n := by
  induction f generalizing n with
  | zero => omega
  | succ f ih =>
    by_cases h : n < 10
    · simp only [digitsFuel, if_pos h]
      omega
    · simp only [digitsFuel, if_neg h]
      have h10 : 10 ≤ n := by omega
      have hrec := ih (n / 10) (by omega) (by omega)
      have hd1 : 1 ≤ digitsFuel f (n / 10) := digitsFuel_pos f (n / 10)
      constructor
      · have h1 : 10 ^ (digitsFuel f (n / 10)) ≤ 10 * (n / 10) := by
          have : 10 ^ (digitsFuel f (n / 10)) =
              10 * 10 ^ (digitsFuel f (n / 10) - 1) := by
            rw [← pow_succ']
            congr 1
            omega
          rw [this]
          exact Nat.mul_le_mul_left 10 hrec.1
        have h2 : 10 * (n / 10) ≤ n := by
          have := Nat.div_mul_le_self n 10
          omega
        calc 10 ^ (digitsFuel f (n / 10) + 1 - 1)
            = 10 ^ (digitsFuel f (n / 10)) := by rw [Nat.add_sub_cancel]
          _ ≤ 10 * (n / 10) := h1
          _ ≤ n := h2
      · have h1 : n < 10 * (n / 10 + 1) := by
          have := Nat.div_add_mod n 10
          have : n % 10 < 10 := Nat.mod_lt n (by omega)
          omega
        have h2 : 10 * (n / 10 + 1) ≤ 10 * 10 ^ (digitsFuel f (n / 10)) :=
          Nat.mul_le_mul_left 10 hrec.2
        calc n < 10 * (n / 10 + 1) := h1
          _ ≤ 10 * 10 ^ (digitsFuel f (n / 10)) := h2
          _ = 10 ^ (digitsFuel f (n / 10) + 1) := (pow_succ' 10 _).symm

theorem numDigits_pos (n : ℕ) : 1 ≤ numDigits n := digitsFuel_pos n n

theorem numDigits_spec (n : ℕ) (hn : 1 ≤ n) :
    10 ^ (numDigits n - 1) ≤ n ∧ n < 10 ^ numDigits n :=
  digitsFuel_spec n n le_rfl hn

theorem ten_zpow_pos (k : ℤ) : (0 : ℚ) < (10 : ℚ) ^ k :=
  zpow_pos (by norm_num) k

theorem ten_zpow_mono {j k : ℤ} (h : j ≤ k) : (10 : ℚ) ^ j ≤ (10 : ℚ) ^ k :=
  zpow_le_zpow_right₀ (by norm_num) h

theorem zpow_collapse (a b : ℤ) : (10 : ℚ) ^ a * (10 : ℚ) ^ b = (10 : ℚ) ^ (a + b) :=
  (zpow_add₀ (by norm_num : (10 : ℚ) ≠ 0) a b).symm

theorem nat_lt_div_succ_mul (a b : ℕ) (hb : 0 < b) : a < (a / b + 1) * b := by
  have h1 := Nat.div_add_mod a b
  have h2 : a % b < b := Nat.mod_lt a hb
  calc a = b * (a / b) + a % b := h1.symm
    _ < b * (a / b) + b := by omega
    _ = (a / b + 1) * b := by ring

theorem exp_bounds_core (a b D t dt : ℕ) (ha : 1 ≤ a) (hb : 0 < b)
    (hbD : b < 10 ^ D) (ht : t = a * 10 ^ D / b) (hdt1 : 1 ≤ dt)
    (htd_low : 10 ^ (dt - 1) ≤ t) (htd_high : t < 10 ^ dt)
    (q : ℚ) (hq_eq : q = (a : ℚ) / (b : ℚ)) :
    (10 : ℚ) ^ ((dt : ℤ) - 1 - (D : ℤ)) ≤ q
    ∧ q < (10 : ℚ) ^ ((dt : ℤ) - 1 - (D : ℤ) + 1) := by
  have hbQ : (0 : ℚ) < (b : ℚ) := by exact_mod_cast hb
  have hDcast : ((10 ^ D : ℕ) : ℚ) = (10 : ℚ) ^ (D : ℤ) := by
    push_cast
    exact (zpow_natCast 10 D).symm
  have ht_low : (t : ℚ) * (b : ℚ) ≤ (a : ℚ) * ((10 ^ D : ℕ) : ℚ) := by
    have h1 : t * b ≤ a * 10 ^ D := by
      rw [ht]
      exact Nat.div_mul_le_self _ _
    calc (t : ℚ) * (b : ℚ) = ((t * b : ℕ) : ℚ) := by push_cast; ring
      _ ≤ ((a * 10 ^ D : ℕ) : ℚ) := by exact_mod_cast h1
      _ = (a : ℚ) * ((10 ^ D : ℕ) : ℚ) := by push_cast; ring
  have ht_high : (a : ℚ) * ((10 ^ D : ℕ) : ℚ) < ((t : ℚ) + 1) * (b : ℚ) := by
    have h1 : a * 10 ^ D < (t + 1) * b := by
      rw [ht]
      exact nat_lt_div_succ_mul _ _ hb
    calc (a : ℚ) * ((10 ^ D : ℕ) : ℚ) = ((a * 10 ^ D : ℕ) : ℚ) := by push_cast; ring
      _ < (((t + 1) * b : ℕ) : ℚ) := by exact_mod_cast h1
      _ = ((t : ℚ) + 1) * (b : ℚ) := by push_cast; ring
  have hq_low : (10 : ℚ) ^ ((dt : ℤ) - 1) ≤ q * (10 : ℚ) ^ (D : ℤ) := by
    have h1 : ((10 ^ (dt - 1) : ℕ) : ℚ) ≤ (t : ℚ) := by exact_mod_cast htd_low
    have h3 : ((10 ^ (dt - 1) : ℕ) : ℚ) = (10 : ℚ) ^ ((dt : ℤ) - 1) := by
      push_cast
      rw [← zpow_natCast (10 : ℚ) (dt - 1)]
      congr 1
      omega
    rw [h3] at h1
    have h2 : (t : ℚ) ≤ q * (10 : ℚ) ^ (D : ℤ) := by
      rw [hq_eq, ← hDcast, div_mul_eq_mul_div, le_div_iff₀ hbQ]
      exact ht_low
    linarith
  have hq_high : q * (10 : ℚ) ^ (D : ℤ) < (10 : ℚ) ^ (dt : ℤ) := by
    have h1 : q * (10 : ℚ) ^ (D : ℤ) < (t : ℚ) + 1 := by
      rw [hq_eq, ← hDcast, div_mul_eq_mul_div, div_lt_iff₀ hbQ]
      exact ht_high
    have h2 : (t : ℚ) + 1 ≤ (10 : ℚ) ^ (dt : ℤ) := by
      have hn : t + 1 ≤ 10 ^ dt := htd_high
      have h3 : ((10 ^ dt : ℕ) : ℚ) = (10 : ℚ) ^ (dt : ℤ) := by
        push_cast
        exact (zpow_natCast 10 dt).symm
      calc (t : ℚ) + 1 = ((t + 1 : ℕ) : ℚ) := by push_cast; ring
        _ ≤ ((10 ^ dt : ℕ) : ℚ) := by exact_mod_cast hn
        _ = (10 : ℚ) ^ (dt : ℤ) := h3
    linarith
  have hDD : (D : ℤ) + -(D : ℤ) = 0 := by ring
  have hcancel : ∀ x : ℚ, x * (10 : ℚ) ^ (D : ℤ) * (10 : ℚ) ^ (-(D : ℤ)) = x := by
    intro x
    rw [mul_assoc, zpow_collapse, hDD, zpow_zero, mul_one]
  constructor
  · have h := mul_le_mul_of_nonneg_right hq_low (le_of_lt (ten_zpow_pos (-(D : ℤ))))
    have hexp : (dt : ℤ) - 1 + -(D : ℤ) = (dt : ℤ) - 1 - (D : ℤ) := by ring
    rw [zpow_collapse, hexp, hcancel q] at h
    exact h
  · have h := mul_lt_mul_of_pos_right hq_high (ten_zpow_pos (-(D : ℤ)))
    have hexp : (dt : ℤ) + -(D : ℤ) = (dt : ℤ) - 1 - (D : ℤ) + 1 := by ring
    rw [hcancel q, zpow_collapse, hexp] at h
    exact h

theorem decExp_spec (q : ℚ) (hq : 0 < q) :
    (10 : ℚ) ^ decExp q ≤ q ∧ q < (10 : ℚ) ^ (decExp q + 1) := by
  have hnum : 0 < q.num := Rat.num_pos.2 hq
  have ha : 1 ≤ q.num.natAbs := Int.natAbs_pos.2 (ne_of_gt hnum)
  have hb : 0 < q.den := q.den_pos
  have hbD : q.den < 10 ^ numDigits q.den := (numDigits_spec q.den hb).2
  have ht1 : 1 ≤ q.num.natAbs * 10 ^ numDigits q.den / q.den := by
    rw [Nat.one_le_div_iff hb]
    calc q.den ≤ 10 ^ numDigits q.den := le_of_lt hbD
      _ ≤ q.num.natAbs * 10 ^ numDigits q.den := Nat.le_mul_of_pos_left _ (by omega)
  have htd := numDigits_spec _ ht1
  have hq_eq : q = ((q.num.natAbs : ℕ) : ℚ) / ((q.den : ℕ) : ℚ) := by
    rw [Int.cast_natAbs, abs_of_pos hnum]
    exact (Rat.num_div_den q).symm
  have h := exp_bounds_core q.num.natAbs q.den (numDigits q.den)
    (q.num.natAbs * 10 ^ numDigits q.den / q.den)
    (numDigits (q.num.natAbs * 10 ^ numDigits q.den / q.den))
    ha hb hbD rfl (numDigits_pos _) htd.1 htd.2 q hq_eq
  exact h

theorem decExp_unique (q : ℚ) (hq : 0 < q) (e : ℤ)
    (h1 : (10 : ℚ) ^ e ≤ q) (h2 : q < (10 : ℚ) ^ (e + 1)) : decExp q = e := by
  have hs := decExp_spec q hq
  by_contra hne
  rcases lt_or_gt_of_ne hne with h | h
  · have : (10 : ℚ) ^ (decExp q + 1) ≤ (10 : ℚ) ^ e := ten_zpow_mono (by omega)
    linarith [hs.2]
  · have : (10 : ℚ) ^ (e + 1) ≤ (10 : ℚ) ^ decExp q := ten_zpow_mono (by omega)
    linarith [hs.1]

theorem decExp_mono (q r : ℚ) (hq : 0 < q) (h : q ≤ r) : decExp q ≤ decExp r := by
  have hr : 0 < r := lt_of_lt_of_le hq h
  have hsq := decExp_spec q hq
  have hsr := decExp_spec r hr
  by_contra hlt
  have : (10 : ℚ) ^ (decExp r + 1) ≤ (10 : ℚ) ^ decExp q := ten_zpow_mono (by omega)
  linarith [hsq.1, hsr.2]

/-! ### Properties of half-even rounding to an integer -/

theorem rndHalfEvenInt_intCast (n : ℤ) : rndHalfEvenInt (n : ℚ) = n := by
  simp [rndHalfEvenInt]

theorem rndHalfEvenInt_ge_floor (m : ℚ) : ⌊m⌋ ≤ rndHalfEvenInt m := by
  simp only [rndHalfEvenInt]
  split_ifs <;> omega

theorem rndHalfEvenInt_le_floor_succ (m : ℚ) : rndHalfEvenInt m ≤ ⌊m⌋ + 1 := by
  simp only [rndHalfEvenInt]
  split_ifs <;> omega

theorem rndHalfEvenInt_ge (A : ℤ) (m : ℚ) (h : (A : ℚ) ≤ m) : A ≤ rndHalfEvenInt m :=
  le_trans (Int.le_floor.2 h) (rndHalfEvenInt_ge_floor m)

theorem rndHalfEvenInt_le (B : ℤ) (m : ℚ) (h : m < (B : ℚ)) : rndHalfEvenInt m ≤ B := by
  have h1 : ⌊m⌋ < B := Int.floor_lt.2 h
  have h2 := rndHalfEvenInt_le_floor_succ m
  omega

theorem rndHalfEvenInt_mono (m₁ m₂ : ℚ) (h : m₁ ≤ m₂) :
    rndHalfEvenInt m₁ ≤ rndHalfEvenInt m₂ := by
  have hf : ⌊m₁⌋ ≤ ⌊m₂⌋ := Int.floor_le_floor h
  rcases lt_or_eq_of_le hf with hlt | heq
  · have h1 := rndHalfEvenInt_le_floor_succ m₁
    have h2 := rndHalfEvenInt_ge_floor m₂
    omega
  · simp only [rndHalfEvenInt, ← heq]
    have hle : m₁ - (⌊m₁⌋ : ℚ) ≤ m₂ - (⌊m₁⌋ : ℚ) := by linarith
    split_ifs <;> first | omega | (exfalso; linarith)

/-! ### Properties of rounding to 50 significant digits -/

theorem drnd_zero : drnd 0 = 0 := by
  simp [drnd]

theorem drnd_of_pos {q : ℚ} (hq : 0 < q) :
    drnd q = ((rndHalfEvenInt (q * (10 : ℚ) ^ (-(decExp q - 49)))) : ℚ)
      * (10 : ℚ) ^ (decExp q - 49) := by
  have h0 : q ≠ 0 := ne_of_gt hq
  have h1 : ¬ q < 0 := not_lt.2 (le_of_lt hq)
  simp only [drnd, if_neg h0, if_neg h1, abs_of_pos hq, PREC, one_mul]
  have he : decExp q - ((50 : ℕ) : ℤ) + 1 = decExp q - 49 := by
    push_cast
    ring
  rw [he]

theorem mantissa_bounds {q : ℚ} (hq : 0 < q) :
    (10 : ℚ) ^ (49 : ℤ) ≤ q * (10 : ℚ) ^ (-(decExp q - 49))
    ∧ q * (10 : ℚ) ^ (-(decExp q - 49)) < (10 : ℚ) ^ (50 : ℤ) := by
  have hs := decExp_spec q hq
  have hp : (0 : ℚ) < (10 : ℚ) ^ (-(decExp q - 49)) := ten_zpow_pos _
  constructor
  · have h := mul_le_mul_of_nonneg_right hs.1 (le_of_lt hp)
    rw [zpow_collapse] at h
    have he : decExp q + -(decExp q - 49) = (49 : ℤ) := by ring
    rw [he] at h
    exact h
  · have h := mul_lt_mul_of_pos_right hs.2 hp
    rw [zpow_collapse] at h
    have he : decExp q + 1 + -(decExp q - 49) = (50 : ℤ) := by ring
    rw [he] at h
    exact h

theorem int_ten_pow_cast (n : ℕ) (k : ℤ) (hk : (n : ℤ) = k) :
    (((10 : ℤ) ^ n : ℤ) : ℚ) = (10 : ℚ) ^ k := by
  rw [Int.cast_pow, ← hk, zpow_natCast]
  norm_num

theorem drnd_mantissa_ge {q : ℚ} (hq : 0 < q) :
    (10 : ℤ) ^ (49 : ℕ) ≤ rndHalfEvenInt (q * (10 : ℚ) ^ (-(decExp q - 49))) := by
  apply rndHalfEvenInt_ge
  have h := (mantissa_bounds hq).1
  calc (((10 : ℤ) ^ (49 : ℕ) : ℤ) : ℚ) = (10 : ℚ) ^ (49 : ℤ) :=
        int_ten_pow_cast 49 49 (by norm_num)
    _ ≤ _ := h

theorem drnd_mantissa_le {q : ℚ} (hq : 0 < q) :
    rndHalfEvenInt (q * (10 : ℚ) ^ (-(decExp q - 49))) ≤ (10 : ℤ) ^ (50 : ℕ) := by
  apply rndHalfEvenInt_le
  have h := (mantissa_bounds hq).2
  calc q * (10 : ℚ) ^ (-(decExp q - 49)) < (10 : ℚ) ^ (50 : ℤ) := h
    _ = (((10 : ℤ) ^ (50 : ℕ) : ℤ) : ℚ) := (int_ten_pow_cast 50 50 (by norm_num)).symm

theorem drnd_pos {q : ℚ} (hq : 0 < q) : 0 < drnd q := by
  rw [drnd_of_pos hq]
  have h1 := drnd_mantissa_ge hq
  have h2 : (0 : ℚ) < ((rndHalfEvenInt (q * (10 : ℚ) ^ (-(decExp q - 49)))) : ℚ) := by
    have : (0 : ℤ) < rndHalfEvenInt (q * (10 : ℚ) ^ (-(decExp q - 49))) := by
      have : (0 : ℤ) < (10 : ℤ) ^ (49 : ℕ) := by positivity
      omega
    exact_mod_cast this
  exact mul_pos h2 (ten_zpow_pos _)

theorem drnd_nonneg {q : ℚ} (hq : 0 ≤ q) : 0 ≤ drnd q := by
  rcases eq_or_lt_of_le hq with h | h
  · rw [← h, drnd_zero]
  · exact le_of_lt (drnd_pos h)

theorem drnd_ge_pow {q : ℚ} (hq : 0 < q) : (10 : ℚ) ^ decExp q ≤ drnd q := by
  rw [drnd_of_pos hq]
  have h1 := drnd_mantissa_ge hq
  have h2 : (10 : ℚ) ^ (49 : ℤ)
      ≤ ((rndHalfEvenInt (q * (10 : ℚ) ^ (-(decExp q - 49)))) : ℚ) := by
    calc (10 : ℚ) ^ (49 : ℤ) = (((10 : ℤ) ^ (49 : ℕ) : ℤ) : ℚ) :=
          (int_ten_pow_cast 49 49 (by norm_num)).symm
      _ ≤ _ := by exact_mod_cast h1
  have h := mul_le_mul_of_nonneg_right h2 (le_of_lt (ten_zpow_pos (decExp q - 49)))
  rw [zpow_collapse] at h
  have he : (49 : ℤ) + (decExp q - 49) = decExp q := by ring
  rw [he] at h
  exact h

theorem drnd_le_pow {q : ℚ} (hq : 0 < q) : drnd q ≤ (10 : ℚ) ^ (decExp q + 1) := by
  rw [drnd_of_pos hq]
  have h1 := drnd_mantissa_le hq
  have h2 : ((rndHalfEvenInt (q * (10 : ℚ) ^ (-(decExp q - 49)))) : ℚ)
      ≤ (10 : ℚ) ^ (50 : ℤ) := by
    calc ((rndHalfEvenInt (q * (10 : ℚ) ^ (-(decExp q - 49)))) : ℚ)
        ≤ (((10 : ℤ) ^ (50 : ℕ) : ℤ) : ℚ) := by exact_mod_cast h1
      _ = (10 : ℚ) ^ (50 : ℤ) := int_ten_pow_cast 50 50 (by norm_num)
  have h := mul_le_mul_of_nonneg_right h2 (le_of_lt (ten_zpow_pos (decExp q - 49)))
  rw [zpow_collapse] at h
  have he : (50 : ℤ) + (decExp q - 49) = decExp q + 1 := by ring
  rw [he] at h
  exact h

theorem decExp_shift {q : ℚ} (hq : 0 < q) (k : ℤ) :
    decExp (q * (10 : ℚ) ^ k) = decExp q + k := by
  have hs := decExp_spec q hq
  have hp : (0 : ℚ) < (10 : ℚ) ^ k := ten_zpow_pos k
  apply decExp_unique _ (mul_pos hq hp)
  · have h := mul_le_mul_of_nonneg_right hs.1 (le_of_lt hp)
    rw [zpow_collapse] at h
    exact h
  · have h := mul_lt_mul_of_pos_right hs.2 hp
    rw [zpow_collapse] at h
    have he : decExp q + 1 + k = decExp q + k + 1 := by ring
    rw [he] at h
    exact h

theorem drnd_shift {q : ℚ} (hq : 0 < q) (k : ℤ) :
    drnd (q * (10 : ℚ) ^ k) = drnd q * (10 : ℚ) ^ k := by
  have hp : (0 : ℚ) < (10 : ℚ) ^ k := ten_zpow_pos k
  rw [drnd_of_pos (mul_pos hq hp), drnd_of_pos hq, decExp_shift hq k]
  have hm : q * (10 : ℚ) ^ k * (10 : ℚ) ^ (-(decExp q + k - 49))
      = q * (10 : ℚ) ^ (-(decExp q - 49)) := by
    rw [mul_assoc, zpow_collapse]
    have he : k + -(decExp q + k - 49) = -(decExp q - 49) := by ring
    rw [he]
  rw [hm, mul_assoc, zpow_collapse]
  have he : decExp q - 49 + k = decExp q + k - 49 := by ring
  rw [he]

theorem decExp_natCast (z : ℕ) (hz : 1 ≤ z) : decExp (z : ℚ) = (numDigits z : ℤ) - 1 := by
  have hzQ : (0 : ℚ) < (z : ℚ) := by exact_mod_cast hz
  have hd := numDigits_spec z hz
  have hd1 := numDigits_pos z
  apply decExp_unique _ hzQ
  · have h1 : ((10 ^ (numDigits z - 1) : ℕ) : ℚ) ≤ (z : ℚ) := by exact_mod_cast hd.1
    have h2 : ((10 ^ (numDigits z - 1) : ℕ) : ℚ) = (10 : ℚ) ^ ((numDigits z : ℤ) - 1) := by
      push_cast
      rw [← zpow_natCast (10 : ℚ) (numDigits z - 1)]
      congr 1
      omega
    rw [h2] at h1
    exact h1
  · have h1 : (z : ℚ) < ((10 ^ numDigits z : ℕ) : ℚ) := by exact_mod_cast hd.2
    have h2 : ((10 ^ numDigits z : ℕ) : ℚ) = (10 : ℚ) ^ ((numDigits z : ℤ) - 1 + 1) := by
      push_cast
      rw [← zpow_natCast (10 : ℚ) (numDigits z)]
      congr 1
      omega
    rw [h2] at h1
    exact h1

theorem numDigits_le_of_lt_pow {z p : ℕ} (hz : 1 ≤ z) (h : z < 10 ^ p) :
    numDigits z ≤ p := by
  have hd := numDigits_spec z hz
  have h1 : 10 ^ (numDigits z - 1) < 10 ^ p := lt_of_le_of_lt hd.1 h
  have h2 : numDigits z - 1 < p :=
    (Nat.pow_lt_pow_iff_right (by omega : 1 < 10)).1 h1
  have := numDigits_pos z
  omega

theorem drnd_natCast (z : ℕ) (hz : 1 ≤ z) (hz50 : z < 10 ^ PREC) :
    drnd (z : ℚ) = (z : ℚ) := by
  have hzQ : (0 : ℚ) < (z : ℚ) := by exact_mod_cast hz
  have hd := numDigits_spec z hz
  have hd1 := numDigits_pos z
  have hdle : numDigits z ≤ 50 := numDigits_le_of_lt_pow hz hz50
  rw [drnd_of_pos hzQ, decExp_natCast z hz]
  have hm : (z : ℚ) * (10 : ℚ) ^ (-((numDigits z : ℤ) - 1 - 49))
      = ((z * 10 ^ (50 - numDigits z) : ℕ) : ℚ) := by
    have he : -((numDigits z : ℤ) - 1 - 49) = ((50 - numDigits z : ℕ) : ℤ) := by
      push_cast [Nat.cast_sub hdle]
      ring
    rw [he, zpow_natCast]
    push_cast
    ring
  rw [hm]
  have hint : ((z * 10 ^ (50 - numDigits z) : ℕ) : ℚ)
      = (((z * 10 ^ (50 - numDigits z) : ℕ) : ℤ) : ℚ) := by push_cast; ring
  rw [hint, rndHalfEvenInt_intCast]
  rw [← hint]
  push_cast
  rw [mul_assoc, ← zpow_natCast (10 : ℚ) (50 - numDigits z), zpow_collapse]
  have he2 : ((50 - numDigits z : ℕ) : ℤ) + ((numDigits z : ℤ) - 1 - 49) = 0 := by
    push_cast [Nat.cast_sub hdle]
    ring
  rw [he2, zpow_zero, mul_one]

theorem drnd_nat_scaled (z : ℕ) (hz : 1 ≤ z) (hz50 : z < 10 ^ PREC) (k : ℤ) :
    drnd ((z : ℚ) * (10 : ℚ) ^ k) = (z : ℚ) * (10 : ℚ) ^ k := by
  have hzQ : (0 : ℚ) < (z : ℚ) := by exact_mod_cast hz
  rw [drnd_shift hzQ k, drnd_natCast z hz hz50]

theorem drnd_form {q : ℚ} (hq : 0 < q) :
    ∃ z : ℕ, 1 ≤ z ∧ z < 10 ^ PREC ∧ ∃ k : ℤ, drnd q = (z : ℚ) * (10 : ℚ) ^ k := by
  have h1 := drnd_mantissa_ge hq
  have h2 := drnd_mantissa_le hq
  rw [drnd_of_pos hq]
  rcases lt_or_eq_of_le h2 with hlt | heq
  · refine ⟨(rndHalfEvenInt (q * (10 : ℚ) ^ (-(decExp q - 49)))).toNat,
      ?_, ?_, decExp q - 49, ?_⟩
    · have : (0 : ℤ) < (10 : ℤ) ^ (49 : ℕ) := by positivity
      omega
    · have h3 : ((10 : ℤ) ^ (50 : ℕ)) = ((10 ^ PREC : ℕ) : ℤ) := by
        simp [PREC]
      omega
    · congr 1
      have : (0 : ℤ) ≤ rndHalfEvenInt (q * (10 : ℚ) ^ (-(decExp q - 49))) := by
        have : (0 : ℤ) < (10 : ℤ) ^ (49 : ℕ) := by positivity
        omega
      exact_mod_cast (Int.toNat_of_nonneg this).symm
  · refine ⟨1, le_rfl, by norm_num [PREC], decExp q + 1, ?_⟩
    rw [heq]
    have h3 : (((10 : ℤ) ^ (50 : ℕ) : ℤ) : ℚ) = (10 : ℚ) ^ (50 : ℤ) :=
      int_ten_pow_cast 50 50 (by norm_num)
    rw [h3, zpow_collapse]
    have he : (50 : ℤ) + (decExp q - 49) = decExp q + 1 := by ring
    rw [he]
    simp

theorem drnd_idem (q : ℚ) (hq : 0 ≤ q) : drnd (drnd q) = drnd q := by
  rcases eq_or_lt_of_le hq with h | h
  · rw [← h, drnd_zero, drnd_zero]
  · obtain ⟨z, hz1, hz2, k, hk⟩ := drnd_form h
    rw [hk, drnd_nat_scaled z hz1 hz2 k]

theorem drnd_mono {q r : ℚ} (hq : 0 ≤ q) (h : q ≤ r) : drnd q ≤ drnd r := by
  rcases eq_or_lt_of_le hq with h0 | h0
  · rw [← h0, drnd_zero]
    exact drnd_nonneg (le_trans hq h)
  · have hr : 0 < r := lt_of_lt_of_le h0 h
    have he : decExp q ≤ decExp r := decExp_mono q r h0 h
    rcases lt_or_eq_of_le he with hlt | heq
    · calc drnd q ≤ (10 : ℚ) ^ (decExp q + 1) := drnd_le_pow h0
        _ ≤ (10 : ℚ) ^ decExp r := ten_zpow_mono (by omega)
        _ ≤ drnd r := drnd_ge_pow hr
    · rw [drnd_of_pos h0, drnd_of_pos hr, ← heq]
      have hm : q * (10 : ℚ) ^ (-(decExp q - 49)) ≤ r * (10 : ℚ) ^ (-(decExp q - 49)) :=
        mul_le_mul_of_nonneg_right h (le_of_lt (ten_zpow_pos _))
      have hn := rndHalfEvenInt_mono _ _ hm
      have hnQ : ((rndHalfEvenInt (q * (10 : ℚ) ^ (-(decExp q - 49)))) : ℚ)
          ≤ ((rndHalfEvenInt (r * (10 : ℚ) ^ (-(decExp q - 49)))) : ℚ) := by
        exact_mod_cast hn
      exact mul_le_mul_of_nonneg_right hnQ (le_of_lt (ten_zpow_pos _))

theorem drnd_of_neg {q : ℚ} (hq : q < 0) :
    drnd q = -(((rndHalfEvenInt ((-q) * (10 : ℚ) ^ (-(decExp (-q) - 49)))) : ℚ)
      * (10 : ℚ) ^ (decExp (-q) - 49)) := by
  have h0 : q ≠ 0 := ne_of_lt hq
  simp only [drnd, if_neg h0, if_pos hq, abs_of_neg hq, PREC]
  have he : decExp (-q) - ((50 : ℕ) : ℤ) + 1 = decExp (-q) - 49 := by
    push_cast
    ring
  rw [he]
  ring

theorem drnd_neg_of_neg {q : ℚ} (hq : q < 0) : drnd q < 0 := by
  rw [drnd_of_neg hq]
  have hpos : 0 < -q := by linarith
  have h1 := drnd_mantissa_ge hpos
  have h2 : (0 : ℚ) < ((rndHalfEvenInt ((-q) * (10 : ℚ) ^ (-(decExp (-q) - 49)))) : ℚ) := by
    have h3 : (0 : ℤ) < rndHalfEvenInt ((-q) * (10 : ℚ) ^ (-(decExp (-q) - 49))) := by
      have : (0 : ℤ) < (10 : ℤ) ^ (49 : ℕ) := by positivity
      omega
    exact_mod_cast h3
  have := mul_pos h2 (ten_zpow_pos (decExp (-q) - 49))
  linarith

theorem drnd_nonpos {q : ℚ} (hq : q ≤ 0) : drnd q ≤ 0 := by
  rcases eq_or_lt_of_le hq with h | h
  · rw [h, drnd_zero]
  · exact le_of_lt (drnd_neg_of_neg h)

theorem drnd_one : drnd 1 = 1 := by
  have := drnd_natCast 1 le_rfl (by norm_num [PREC])
  simpa using this

theorem drnd_RAY : drnd RAY = RAY := by
  have h := drnd_nat_scaled 1 le_rfl (by norm_num [PREC]) 27
  have h2 : ((1 : ℕ) : ℚ) * (10 : ℚ) ^ (27 : ℤ) = RAY := by
    rw [show (27 : ℤ) = ((27 : ℕ) : ℤ) from by norm_num, zpow_natCast, RAY]
    norm_num
  rw [h2] at h
  exact h

/-! ### The contract-mimicking and exact Decimal paths compute equal values -/

theorem RAY_zpow : RAY = (10 : ℚ) ^ (27 : ℤ) := by
  rw [RAY, show (27 : ℤ) = ((27 : ℕ) : ℤ) from by norm_num, zpow_natCast]

theorem div_ten4 (x : ℚ) : x / 10000 = x * (10 : ℚ) ^ (-4 : ℤ) := by
  have h : (10 : ℚ) ^ (-4 : ℤ) = 1 / 10000 := by
    rw [zpow_neg, show (4 : ℤ) = ((4 : ℕ) : ℤ) from by norm_num, zpow_natCast]
    norm_num
  rw [h]
  ring

theorem SY_pos : (0 : ℚ) < SECONDS_IN_YEAR := by norm_num [SECONDS_IN_YEAR]

theorem rate_per_second_eq (bps : ℕ) :
    contract_rate_per_second (bps : ℤ) = exact_rate_per_second (bps : ℤ) := by
  rcases Nat.eq_zero_or_pos bps with h0 | hpos
  · subst h0
    simp [contract_rate_per_second, contract_annual_rate_ray, exact_rate_per_second,
      dmul, ddiv, drnd_zero]
  · have hB : (0 : ℚ) < (((bps : ℕ) : ℤ) : ℚ) := by exact_mod_cast hpos
    set B : ℚ := (((bps : ℕ) : ℤ) : ℚ) with hB_def
    have hBnn : (0 : ℚ) ≤ B := le_of_lt hB
    have hdB : 0 < drnd B := drnd_pos hB
    have hq : 0 < drnd B / SECONDS_IN_YEAR := div_pos hdB SY_pos
    have hc1 : (10 : ℚ) ^ (27 : ℤ) * (10 : ℚ) ^ (-4 : ℤ) = (10 : ℚ) ^ (23 : ℤ) := by
      rw [zpow_collapse]
      norm_num
    have hc2 : (10 : ℚ) ^ (-4 : ℤ) * (10 : ℚ) ^ (27 : ℤ) = (10 : ℚ) ^ (23 : ℤ) := by
      rw [zpow_collapse]
      norm_num
    -- the contract path
    have h1 : dmul B RAY = drnd B * (10 : ℚ) ^ (27 : ℤ) := by
      rw [dmul, RAY_zpow, drnd_shift hB 27]
    have h2 : ddiv (drnd B * (10 : ℚ) ^ (27 : ℤ)) 10000 = drnd B * (10 : ℚ) ^ (23 : ℤ) := by
      rw [ddiv, div_ten4, mul_assoc, hc1, drnd_shift hdB 23, drnd_idem B hBnn]
    have h3 : ddiv (drnd B * (10 : ℚ) ^ (23 : ℤ)) SECONDS_IN_YEAR
        = drnd (drnd B / SECONDS_IN_YEAR) * (10 : ℚ) ^ (23 : ℤ) := by
      rw [ddiv, show drnd B * (10 : ℚ) ^ (23 : ℤ) / SECONDS_IN_YEAR
        = drnd B / SECONDS_IN_YEAR * (10 : ℚ) ^ (23 : ℤ) from by ring,
        drnd_shift hq 23]
    have hcontract : contract_rate_per_second (bps : ℤ)
        = drnd (drnd B / SECONDS_IN_YEAR) * (10 : ℚ) ^ (23 : ℤ) := by
      rw [contract_rate_per_second, contract_annual_rate_ray, ← hB_def, h1, h2, h3]
    -- the exact path
    have e1 : ddiv B 10000 = drnd B * (10 : ℚ) ^ (-4 : ℤ) := by
      rw [ddiv, div_ten4, drnd_shift hB (-4)]
    have e2 : ddiv (drnd B * (10 : ℚ) ^ (-4 : ℤ)) SECONDS_IN_YEAR
        = drnd (drnd B / SECONDS_IN_YEAR) * (10 : ℚ) ^ (-4 : ℤ) := by
      rw [ddiv, show drnd B * (10 : ℚ) ^ (-4 : ℤ) / SECONDS_IN_YEAR
        = drnd B / SECONDS_IN_YEAR * (10 : ℚ) ^ (-4 : ℤ) from by ring,
        drnd_shift hq (-4)]
    have e3 : dmul (drnd (drnd B / SECONDS_IN_YEAR) * (10 : ℚ) ^ (-4 : ℤ)) RAY
        = drnd (drnd B / SECONDS_IN_YEAR) * (10 : ℚ) ^ (23 : ℤ) := by
      rw [dmul, RAY_zpow, mul_assoc, hc2, drnd_shift (drnd_pos hq) 23,
        drnd_idem _ (le_of_lt hq)]
    have hexact : exact_rate_per_second (bps : ℤ)
        = drnd (drnd B / SECONDS_IN_YEAR) * (10 : ℚ) ^ (23 : ℤ) := by
      rw [exact_rate_per_second, ← hB_def, e1, e2, e3]
    rw [hcontract, hexact]

theorem dsub_self (x : ℚ) : dsub x x = 0 := by
  simp [dsub, drnd_zero]

theorem dabs_zero : dabs 0 = 0 := by
  simp [dabs, drnd_zero]

theorem ddiv_zero_num (b : ℚ) : ddiv 0 b = 0 := by
  simp [ddiv, drnd_zero]

theorem dmul_zero_num (b : ℚ) : dmul 0 b = 0 := by
  simp [dmul, drnd_zero]

theorem loss_formula_zero {x y : ℚ} (h : x = y) :
    dmul (ddiv (dabs (dsub x y)) RAY) 10000 = 0 := by
  rw [h, dsub_self, dabs_zero, ddiv_zero_num, dmul_zero_num]

theorem growth_factor_eq (bps : ℕ) (dt : ℤ) :
    contract_growth_factor (bps : ℤ) dt = exact_growth_factor (bps : ℤ) dt := by
  rw [contract_growth_factor, exact_growth_factor, rate_per_second_eq]

theorem yield_index_eq (bps : ℕ) (interval : ℤ) (n : ℕ) :
    contract_yield_index (bps : ℤ) interval n = exact_yield_index (bps : ℤ) interval n := by
  induction n with
  | zero => rfl
  | succ n ih =>
    rw [contract_yield_index, exact_yield_index, ih, growth_factor_eq]

/-- C2: for every rate in basis points, the contract-path Decimal
computation Decimal(rate_bps) * RAY / 10000 / SECONDS_IN_YEAR and the
exact-path computation (Decimal(rate_bps) / 10000) / SECONDS_IN_YEAR * RAY
produce equal values under the 50-significant-digit context, hence the
per-step growth factors and running yield indices of the two paths agree
at every step and every fixed-vs-exact precision-loss value the tool
computes is exactly zero. -/
theorem C2_contract_exact_agree (bps : ℕ) :
    contract_rate_per_second (bps : ℤ) = exact_rate_per_second (bps : ℤ)
    ∧ (∀ dt : ℤ, contract_growth_factor (bps : ℤ) dt = exact_growth_factor (bps : ℤ) dt)
    ∧ (∀ interval : ℤ, ∀ n : ℕ,
        contract_yield_index (bps : ℤ) interval n = exact_yield_index (bps : ℤ) interval n)
    ∧ rate_per_second_loss (bps : ℤ) = 0
    ∧ (∀ dt : ℤ, growth_factor_loss (bps : ℤ) dt = 0)
    ∧ (∀ interval : ℤ, ∀ n : ℕ, cumulative_index_loss (bps : ℤ) interval n = 0) := by
  refine ⟨rate_per_second_eq bps, fun dt => growth_factor_eq bps dt,
    fun interval n => yield_index_eq bps interval n, ?_, ?_, ?_⟩
  · exact loss_formula_zero (rate_per_second_eq bps).symm
  · intro dt
    exact loss_formula_zero (growth_factor_eq bps dt).symm
  · intro interval n
    exact loss_formula_zero (yield_index_eq bps interval n).symm

/-! ### Shared zero-time and scaling facts -/

theorem ten4_zpow : (10000 : ℚ) = (10 : ℚ) ^ (4 : ℤ) := by
  rw [show (4 : ℤ) = ((4 : ℕ) : ℤ) from by norm_num, zpow_natCast]
  norm_num

theorem linear_zero_time (bps : ℤ) : calculate_linear_growth_factor bps 0 = 1 := by
  simp only [calculate_linear_growth_factor, Int.cast_zero, dmul, mul_zero, drnd_zero,
    dadd, add_zero, drnd_one]

theorem contract_growth_zero_time (bps : ℤ) : contract_growth_factor bps 0 = RAY := by
  simp only [contract_growth_factor, Int.cast_zero, dmul, mul_zero, drnd_zero,
    dadd, add_zero, drnd_RAY]

theorem exact_growth_zero_time (bps : ℤ) : exact_growth_factor bps 0 = RAY := by
  simp only [exact_growth_factor, Int.cast_zero, dmul, mul_zero, drnd_zero,
    dadd, add_zero, drnd_RAY]

theorem continuous_zero_time (fexp : ℚ → ℚ) (hexp : fexp 0 = 1) (bps : ℤ) :
    calculate_continuous_compounding_factor fexp bps 0 = 1 := by
  simp only [calculate_continuous_compounding_factor, Int.cast_zero, dmul, mul_zero,
    drnd_zero, hexp]

/-! ### Claim C1: the rate-per-second derivation does not truncate -/

unseal Rat.mul Rat.add Rat.sub Rat.inv in
/-- C1 evidence: the claim states that the fixed-point model computes
ratePerSecond = floor(floor(rateBasisPoints * RAY / 10000) / secondsPerYear),
a non-negative integer.  At rate 1000 bps the script instead produces the
50-significant-digit rounded quotient: a rational with denominator
different from 1 (so not an integer), different from the double-floored
integer value the claim specifies. -/
theorem C1_rate_per_second_not_floored :
    (contract_rate_per_second 1000).den ≠ 1
    ∧ contract_rate_per_second 1000 ≠ ((1000 * 10 ^ 27 / 10000 / 31536000 : ℕ) : ℚ) := by
  decide

/-! ### Claim C3: the yield-index update does not truncate -/

unseal Rat.mul Rat.add Rat.sub Rat.inv in
/-- C3 evidence: the claim states that the next index equals
floor(currentIndex * growthFactor / RAY), an integer.  Taking the initial
index RAY and the contract growth factor of the 10 percent APR, one hour
scenario, the script computes index * growthFactor / RAY in 50-digit
Decimal arithmetic, producing a value different from the floored integer
of the claim. -/
theorem C3_index_update_not_floored :
    apply_growth RAY (contract_growth_factor 1000 3600)
      ≠ ((⌊RAY * contract_growth_factor 1000 3600 / RAY⌋ : ℤ) : ℚ) := by
  decide

/-! ### Claim C4: the precision-loss evaluator -/

set_option maxRecDepth 40000 in
unseal Rat.mul Rat.add Rat.sub Rat.inv in
/-- C4 counterexample: the claim states the evaluator returns
abs(a - b) / unitScale * 10000, symmetric and strictly positive whenever
a differs from b.  At (linear, continuous) = (2, 1) the script returns 0,
not the 10000 the absolute-difference formula gives, and the function is
not symmetric in its two arguments. -/
theorem C4_loss_not_absolute :
    calculate_precision_loss 2 1 = 0
    ∧ calculate_precision_loss 2 1 ≠ |(2 : ℚ) - 1| / 1 * 10000
    ∧ calculate_precision_loss 1 2 ≠ calculate_precision_loss 2 1 := by
  decide

/-- C4 amended: calculate_precision_loss returns 0 whenever
continuous_factor is at most linear_factor (in particular when they are
equal), and returns the 50-digit rounding of (continuous - linear) times
10000, a strictly positive value, when continuous exceeds linear; it is
one-sided, not an absolute difference. -/
theorem C4_loss_one_sided (a b : ℚ) :
    (b ≤ a → calculate_precision_loss a b = 0)
    ∧ (a < b → calculate_precision_loss a b = drnd (b - a) * 10000
        ∧ 0 < calculate_precision_loss a b) := by
  constructor
  · intro h
    simp [calculate_precision_loss, if_pos h]
  · intro h
    have hnb : ¬ b ≤ a := not_le.2 h
    have hpos : 0 < b - a := sub_pos.2 h
    have hd : 0 < drnd (b - a) := drnd_pos hpos
    have hmain : calculate_precision_loss a b = drnd (b - a) * 10000 := by
      simp only [calculate_precision_loss, if_neg hnb]
      rw [dsub, ddiv, div_one, drnd_idem _ (le_of_lt hpos), dmul, ten4_zpow,
        drnd_shift hd 4, drnd_idem _ (le_of_lt hpos)]
    exact ⟨hmain, by rw [hmain]; positivity⟩

theorem C4_loss_one_sided_witness :
    (calculate_precision_loss 2 1 = 0)
    ∧ (calculate_precision_loss 1 2 = drnd (2 - 1) * 10000
        ∧ 0 < calculate_precision_loss 1 2) :=
  ⟨(C4_loss_one_sided 2 1).1 (by norm_num), (C4_loss_one_sided 1 2).2 (by norm_num)⟩

/-! ### Claim C6: zero update interval -/

set_option maxRecDepth 40000 in
unseal Rat.mul Rat.add Rat.sub Rat.inv in
/-- C6 counterexample: the claim states that a zero updateIntervalSeconds
is rejected explicitly with an error before any computation, never
producing a substituted result.  analyze_update_frequency_impact instead
substitutes a step count of 1 and completes the scenario, returning the
cumulative factor 1. -/
theorem C6_zero_interval_substituted :
    update_frequency_step_count 86400 0 = 1
    ∧ update_frequency_cumulative_factor 1000 86400 0 = 1 := by
  decide

/-- C6 amended: of the two cumulative runners, only
analyze_cumulative_yield_index_precision stops on a zero interval, and it
does so with an unhandled ZeroDivisionError at the floor division itself,
not with an explicit pre-check; analyze_update_frequency_impact does not
reject zero at all: it silently substitutes a single step and completes,
returning cumulative factor 1. -/
theorem C6_zero_interval_behavior (total : ℕ) (bps : ℤ) :
    cumulative_step_count total 0 = Except.error "ZeroDivisionError"
    ∧ update_frequency_step_count total 0 = 1
    ∧ update_frequency_cumulative_factor bps total 0 = 1 := by
  refine ⟨rfl, rfl, ?_⟩
  have h : update_frequency_cumulative_factor bps total 0
      = dmul 1 (calculate_linear_growth_factor bps (0 : ℤ)) := rfl
  rw [h, linear_zero_time]
  simp [dmul, drnd_one]

/-! ### Claim C7: no input validation -/

set_option maxRecDepth 40000 in
unseal Rat.mul Rat.add Rat.sub Rat.inv in
/-- C7 counterexample: the claim states that negative rates, negative
times and rates above the 5000 bps cap are rejected with an error before
any arithmetic.  The script performs no validation: a rate of 6000 bps
(above the cap) yields an ordinary growth factor above 1, a negative rate
yields a factor below 1, and a negative time yields a factor below 1 -
all silently computed. -/
theorem C7_invalid_inputs_flow_through :
    (1 : ℚ) < calculate_linear_growth_factor 6000 3600
    ∧ calculate_linear_growth_factor (-100) 3600 < 1
    ∧ calculate_linear_growth_factor 1000 (-3600) < 1 := by
  decide

/-- C7 amended: the model functions validate nothing; inputs outside the
documented domain flow through the arithmetic and produce ordinary
numeric results.  In particular every negative rate with non-negative
time produces a growth factor of at most 1 rather than an error. -/
theorem C7_negative_rate_silently_computes (bps t : ℤ) (hb : bps < 0) (ht : 0 ≤ t) :
    calculate_linear_growth_factor bps t ≤ 1 := by
  simp only [calculate_linear_growth_factor]
  have hbQ : (bps : ℚ) < 0 := by exact_mod_cast hb
  have h1 : (bps : ℚ) / 10000 < 0 := div_neg_of_neg_of_pos hbQ (by norm_num)
  have h2 : ddiv (bps : ℚ) 10000 < 0 := by
    rw [ddiv]
    exact drnd_neg_of_neg h1
  have h3 : ddiv (ddiv (bps : ℚ) 10000) SECONDS_IN_YEAR < 0 := by
    rw [ddiv]
    exact drnd_neg_of_neg (div_neg_of_neg_of_pos h2 SY_pos)
  have htQ : (0 : ℚ) ≤ (t : ℚ) := by exact_mod_cast ht
  have h4 : dmul (ddiv (ddiv (bps : ℚ) 10000) SECONDS_IN_YEAR) (t : ℚ) ≤ 0 := by
    rw [dmul]
    refine drnd_nonpos ?_
    exact mul_nonpos_iff.2 (Or.inr ⟨le_of_lt h3, htQ⟩)
  rw [dadd]
  rcases le_or_lt 0 (1 + dmul (ddiv (ddiv (bps : ℚ) 10000) SECONDS_IN_YEAR) (t : ℚ))
    with hc | hc
  · calc drnd (1 + dmul (ddiv (ddiv (bps : ℚ) 10000) SECONDS_IN_YEAR) (t : ℚ))
        ≤ drnd 1 := drnd_mono hc (by linarith)
      _ = 1 := drnd_one
  · calc drnd (1 + dmul (ddiv (ddiv (bps : ℚ) 10000) SECONDS_IN_YEAR) (t : ℚ))
        ≤ 0 := drnd_nonpos (le_of_lt hc)
      _ ≤ 1 := by norm_num

theorem C7_negative_rate_witness :
    calculate_linear_growth_factor (-100) 3600 ≤ 1 :=
  C7_negative_rate_silently_computes (-100) 3600 (by norm_num) (by norm_num)

/-! ### Claim C8: monotonicity in elapsed time -/

set_option maxRecDepth 40000 in
unseal Rat.mul Rat.add Rat.sub Rat.inv in
/-- C8 counterexample: the claim states that for fixed positive rate the
linear growth factor strictly increases with elapsedSeconds.  At rate
1 bps, the elapsed times 10^63 and 10^63 + 1 produce identical linear
growth factors, because the one-second increment is absorbed by rounding
to 50 significant digits, so none of the three claimed strict
monotonicities holds as stated. -/
theorem C8_linear_factor_plateaus :
    calculate_linear_growth_factor 1 (10 ^ 63)
      = calculate_linear_growth_factor 1 (10 ^ 63 + 1) := by
  decide

/-- C8 amended: for every rate, the linear growth factor is monotone
nondecreasing in elapsedSeconds, but not strictly increasing: at extreme
elapsed times the 50-significant-digit rounding absorbs small increments.
(The continuous factor is computed through the double-precision
floating-point bridge math.exp and is outside the Decimal model.) -/
theorem C8_linear_factor_monotone (bps t u : ℕ) (h : t ≤ u) :
    calculate_linear_growth_factor (bps : ℤ) (t : ℤ)
      ≤ calculate_linear_growth_factor (bps : ℤ) (u : ℤ) := by
  simp only [calculate_linear_growth_factor]
  have hrd : (0 : ℚ) ≤ ddiv (((bps : ℕ) : ℤ) : ℚ) 10000 := by
    rw [ddiv]
    refine drnd_nonneg (div_nonneg ?_ (by norm_num))
    exact_mod_cast Nat.zero_le bps
  have hrps : (0 : ℚ) ≤ ddiv (ddiv (((bps : ℕ) : ℤ) : ℚ) 10000) SECONDS_IN_YEAR := by
    rw [ddiv]
    exact drnd_nonneg (div_nonneg hrd (le_of_lt SY_pos))
  have htu : (((t : ℕ) : ℤ) : ℚ) ≤ (((u : ℕ) : ℤ) : ℚ) := by exact_mod_cast h
  have htQ : (0 : ℚ) ≤ (((t : ℕ) : ℤ) : ℚ) := by
    exact_mod_cast Int.ofNat_nonneg t
  have hx : dmul (ddiv (ddiv (((bps : ℕ) : ℤ) : ℚ) 10000) SECONDS_IN_YEAR)
        (((t : ℕ) : ℤ) : ℚ)
      ≤ dmul (ddiv (ddiv (((bps : ℕ) : ℤ) : ℚ) 10000) SECONDS_IN_YEAR)
        (((u : ℕ) : ℤ) : ℚ) := by
    rw [dmul, dmul]
    exact drnd_mono (mul_nonneg hrps htQ) (mul_le_mul_of_nonneg_left htu hrps)
  have hxnn : (0 : ℚ) ≤ dmul (ddiv (ddiv (((bps : ℕ) : ℤ) : ℚ) 10000) SECONDS_IN_YEAR)
      (((t : ℕ) : ℤ) : ℚ) := by
    rw [dmul]
    exact drnd_nonneg (mul_nonneg hrps htQ)
  rw [dadd, dadd]
  exact drnd_mono (by linarith) (by linarith)

theorem C8_linear_factor_monotone_witness :
    calculate_linear_growth_factor ((1000 : ℕ) : ℤ) ((3600 : ℕ) : ℤ)
      ≤ calculate_linear_growth_factor ((1000 : ℕ) : ℤ) ((86400 : ℕ) : ℤ) :=
  C8_linear_factor_monotone 1000 3600 86400 (by norm_num)

/-! ### Claim C9: a one-step cumulative scenario equals the single-step model -/

/-- C9: running the cumulative scenario with updateIntervalSeconds equal
to totalTimeSeconds performs exactly one update, and the resulting
fixed-point index coincides with the single-step final index
RAY * growthFactor / RAY that analyze_extreme_yield_index_scenarios
computes for the same RateSpec. -/
theorem C9_single_step_consistency (bps : ℕ) (hbps : bps ≤ 5000)
    (total : ℕ) (ht : 0 < total) :
    run_cumulative_contract (bps : ℤ) total total
      = Except.ok (contract_final_index (bps : ℤ) (total : ℤ)) := by
  simp only [run_cumulative_contract, if_neg (show ¬ total = 0 from by omega),
    Nat.div_self ht]
  rfl

theorem C9_single_step_consistency_witness :
    run_cumulative_contract ((1000 : ℕ) : ℤ) 86400 86400
      = Except.ok (contract_final_index ((1000 : ℕ) : ℤ) ((86400 : ℕ) : ℤ)) :=
  C9_single_step_consistency 1000 (by norm_num) 86400 (by norm_num)

/-! ### Claim C10: zero elapsed time gives the exact baseline in all models -/

/-- C10: for every valid RateSpec with timeSeconds = 0, the linear factor
is exactly 1, the continuous factor is exactly 1 (for any exponential
bridge mapping 0 to 1, which IEEE 754 requires of exp), the contract and
exact growth factors are exactly RAY, and both precision losses the tool
computes for such a scenario are exactly zero. -/
theorem C10_zero_time_baseline (bps : ℕ) (hbps : bps ≤ 5000)
    (fexp : ℚ → ℚ) (hexp : fexp 0 = 1) :
    calculate_linear_growth_factor (bps : ℤ) 0 = 1
    ∧ calculate_continuous_compounding_factor fexp (bps : ℤ) 0 = 1
    ∧ contract_growth_factor (bps : ℤ) 0 = RAY
    ∧ exact_growth_factor (bps : ℤ) 0 = RAY
    ∧ calculate_precision_loss (calculate_linear_growth_factor (bps : ℤ) 0)
        (calculate_continuous_compounding_factor fexp (bps : ℤ) 0) = 0
    ∧ growth_factor_loss (bps : ℤ) 0 = 0 := by
  refine ⟨linear_zero_time _, continuous_zero_time fexp hexp _,
    contract_growth_zero_time _, exact_growth_zero_time _, ?_, ?_⟩
  · rw [linear_zero_time, continuous_zero_time fexp hexp]
    simp [calculate_precision_loss]
  · exact loss_formula_zero
      (by rw [exact_growth_zero_time, contract_growth_zero_time])

theorem C10_zero_time_baseline_witness :
    calculate_linear_growth_factor ((1000 : ℕ) : ℤ) 0 = 1
    ∧ calculate_continuous_compounding_factor (fun _ => (1 : ℚ)) ((1000 : ℕ) : ℤ) 0 = 1
    ∧ contract_growth_factor ((1000 : ℕ) : ℤ) 0 = RAY
    ∧ exact_growth_factor ((1000 : ℕ) : ℤ) 0 = RAY
    ∧ calculate_precision_loss (calculate_linear_growth_factor ((1000 : ℕ) : ℤ) 0)
        (calculate_continuous_compounding_factor (fun _ => (1 : ℚ)) ((1000 : ℕ) : ℤ) 0) = 0
    ∧ growth_factor_loss ((1000 : ℕ) : ℤ) 0 = 0 :=
  C10_zero_time_baseline 1000 (by norm_num) (fun _ => (1 : ℚ)) rfl

end GhoPrecision
